import Mathlib

/-!
# Verification of the moleculer-graphql gateway core

A shallow embedding of the discovery-and-convergence engine of the
moleculer-graphql repository.  The embedded revision is the one the spec was
written from: the `GraphQLGateway` class that listens for
`graphqlService.connected` / `graphqlService.disconnected` broadcasts, stores
`RemoteSchemaDefinition` records in `connectedServices`, tracks
`requiredGraphQLTypes` / `discoveredGraphQLTypes`, and polls recursively in
`start`.

External collaborators (the broker transport, the GraphQL parser/executor, the
`mergeSchemas` stitching primitive, the Apollo link) are modelled as black
boxes: raw documents carry their parse result alongside their text, and the
stitching primitive is a function parameter producing the merged root query
field map.  Asynchrony is modelled by sequencing: the broker delivers events
one at a time, and each handler runs to completion (the repository's handlers
contain no interleaving-sensitive awaits between state writes).
-/

namespace MoleculerGraphQL

/-! ## GraphQL AST fragments (graphql-js document nodes, as used by the code) -/

/-- A type reference node: `NamedType`, `ListType` or `NonNullType` wrappers. -/
inductive TypeNode
  | namedType (name : String)
  | listType (ofType : TypeNode)
  | nonNullType (ofType : TypeNode)
deriving DecidableEq

/-- A field definition inside an object type definition / type extension.
In the graphql AST every field definition carries a type node, so the
source's defensive `if (field.type)` check is always taken. -/
structure FieldDefinition where
  name : String
  fieldType : TypeNode
deriving DecidableEq

/-- A top-level definition of a parsed document.  The code only discriminates
on `ObjectTypeDefinition` (primary types) and `TypeExtensionDefinition`
(relationship extensions); everything else falls in `otherDefinition`. -/
inductive Definition
  | objectTypeDefinition (name : String) (fields : List FieldDefinition)
  | typeExtensionDefinition (name : String) (fields : List FieldDefinition)
  | otherDefinition (name : String)
deriving DecidableEq

/-- `d.name.value` (`selectn('name.value', d)`). -/
def Definition.nameValue : Definition → String
  | .objectTypeDefinition n _ => n
  | .typeExtensionDefinition n _ => n
  | .otherDefinition n => n

/-- A parsed GraphQL document (`DocumentNode`). -/
structure DocumentNode where
  definitions : List Definition
deriving DecidableEq

/-- A raw schema string together with its parse result: `parse(text) = parsed`.
The JS code compares raw documents by string identity (`!==`) and feeds them
to `parse`; carrying both components embeds that without a GraphQL parser. -/
structure RawDoc where
  text : String
  parsed : DocumentNode
deriving DecidableEq

/-! ## utilities.js : getRelatedTypes / getNamedTypeNode -/

/-- `getNamedTypeNode`: unwrap `ListType` / `NonNullType` wrappers until a
`NamedType` remains (the source's while loop, as structural recursion). -/
def getNamedTypeNode : TypeNode → TypeNode
  | .listType t => getNamedTypeNode t
  | .nonNullType t => getNamedTypeNode t
  | .namedType n => .namedType n

/-- `getNamedTypeNode(t).name.value`; `getNamedTypeNode` always produces a
named type node, whose name this reads. -/
def getNamedTypeName (t : TypeNode) : String :=
  match getNamedTypeNode t with
  | .namedType n => n
  | _ => ""

/-- `getRelatedTypes`: walk the relationship document's definitions, and for
each `TypeExtensionDefinition` append the base named type of every field
(`types = types.concat(definition.definition.fields.map(...))`). -/
def getRelatedTypes (documentNode : DocumentNode) : List String :=
  documentNode.definitions.foldl
    (fun types d =>
      match d with
      | .typeExtensionDefinition _ fields =>
          types ++ fields.map (fun field => getNamedTypeName field.fieldType)
      | _ => types)
    []

/-! ## lodash helpers used by the gateway -/

/-- lodash `difference(array, values)`: the elements of `array` not contained
in `values`, in order, duplicates of `array` retained. -/
def lodashDifference (array values : List String) : List String :=
  array.filter (fun x => decide (x ∉ values))

/-- `concatDifference(source, target)`: append to `source` the elements of
`target` not already in `source`. -/
def concatDifference (source target : List String) : List String :=
  source ++ lodashDifference target source

/-! ## Relation definitions (Types/ServiceConfiguration.js) and lodash isEqual -/

/-- `RelationDefinition`: `{ type: 'query'|'mutation', operationName, args }`
where `args` maps argument names to dotted source paths. -/
structure RelationDefinition where
  opKind : String
  operationName : String
  args : List (String × String)
deriving DecidableEq

/-- lodash `isEqual` on two plain JS objects represented as key/value lists:
same key set and deeply equal values, key order irrelevant. -/
def objMapEq {α : Type} (valEq : α → α → Bool) (a b : List (String × α)) : Bool :=
  a.all (fun p => match b.lookup p.1 with | some v => valEq p.2 v | none => false) &&
  b.all (fun p => match a.lookup p.1 with | some v => valEq v p.2 | none => false)

/-- Deep equality of two `RelationDefinition` objects (key order of `args`
irrelevant). -/
def relDefEq (a b : RelationDefinition) : Bool :=
  (a.opKind == b.opKind) && (a.operationName == b.operationName) &&
    objMapEq (fun x y => x == y) a.args b.args

/-- Deep equality of two relation-definition maps (`isEqual` on the
`relationDefinitions` objects). -/
def relDefsEq (a b : List (String × RelationDefinition)) : Bool :=
  objMapEq relDefEq a b

/-! ## RemoteSchemaDefinition and the registry -/

/-- The payload broadcast on `graphqlService.connected` / `.disconnected`. -/
structure RemoteSchemaDefinition where
  schema : RawDoc
  relationships : Option RawDoc
  relationDefinitions : List (String × RelationDefinition)
  serviceName : String
deriving DecidableEq

/-- The result of `createRemoteSchema` (introspection over the Moleculer link
plus `makeRemoteExecutableSchema`): a black-box callable proxy tagged with the
service it fronts. -/
structure RemoteExecutableSchema where
  service : String
deriving DecidableEq

/-- One entry of `connectedServices`: the stored broadcast payload plus the
`remoteExecutableSchema` field populated by `buildRemoteSchema`. -/
structure StoredService where
  defn : RemoteSchemaDefinition
  remoteExecutableSchema : Option RemoteExecutableSchema
deriving DecidableEq

/-- JS object assignment `m[k] = v`: update in place when the key exists
(keeping its position), otherwise append. -/
def setKey {α : Type} (m : List (String × α)) (k : String) (v : α) : List (String × α) :=
  if m.any (fun p => p.1 == k) then
    m.map (fun p => if p.1 == k then (k, v) else p)
  else
    m ++ [(k, v)]

/-- JS `delete m[k]`. -/
def delKey {α : Type} (m : List (String × α)) (k : String) : List (String × α) :=
  m.filter (fun p => p.1 ≠ k)

/-! ## The stitched schema and the determinism pass

`mergeSchemas` is an external stitching primitive (out of scope per the spec);
we model its output as an object carrying the inputs it was merged from plus a
root query field map.  How the field map is computed from the inputs is the
stitcher's business, so it is a function parameter `stitch` threaded through
the gateway operations; field objects themselves are opaque (`Nat` ids). -/

/-- One member of the `schemas` array handed to `mergeSchemas`: either a
remote executable schema or a raw relationship document string. -/
inductive MergeMember
  | remote (r : RemoteExecutableSchema)
  | relationshipText (text : String)
deriving DecidableEq

/-- The inputs collected by `generateSchema` for `mergeSchemas`: the schemas
array plus the per-service relation definitions fed to
`buildRelationalResolvers`. -/
structure MergeInputs where
  schemas : List MergeMember
  resolverDefinitions : List (String × List (String × RelationDefinition))
deriving DecidableEq

/-- A merged `GraphQLSchema` object: the inputs it was merged from and the
field map of its root query type (`schema._queryType._fields`). -/
structure GraphQLSchemaObj where
  mergedFrom : MergeInputs
  queryFields : List (String × Nat)
deriving DecidableEq

/-- `mergeSchemas({schemas, resolvers})`, with the external field-map
computation abstracted as `stitch`. -/
def mergeSchemas (stitch : MergeInputs → List (String × Nat)) (inputs : MergeInputs) :
    GraphQLSchemaObj :=
  { mergedFrom := inputs, queryFields := stitch inputs }

/-- String comparison as JS `Array.prototype.sort` performs it on field
names: lexicographic over the character sequences. -/
instance : IsTotal String (fun a b : String => a.data ≤ b.data) :=
  ⟨fun a b => le_total a.data b.data⟩

instance : IsTrans String (fun a b : String => a.data ≤ b.data) :=
  ⟨fun _ _ _ h₁ h₂ => le_trans h₁ h₂⟩

/-- `alphabetizeSchema`: if the root query field names are not already in
sorted order, rebuild the field map in lexicographically sorted key order
(JS default sort: lexicographic on the character sequence); otherwise return
the schema untouched. -/
def alphabetizeSchema (schema : GraphQLSchemaObj) : GraphQLSchemaObj :=
  let fields := schema.queryFields
  let unordered := fields.map Prod.fst
  let ordered := List.insertionSort (fun a b : String => a.data ≤ b.data) unordered
  if unordered ≠ ordered then
    { schema with queryFields := ordered.map (fun field => (field, (fields.lookup field).getD 0)) }
  else
    schema

/-- The external `printSchema` pretty-printer: deterministic in the schema
value, and sensitive to root query field order (which is the point of the
determinism pass). -/
def printSchemaText (s : GraphQLSchemaObj) : String :=
  String.intercalate ", " (s.queryFields.map Prod.fst)

/-! ## Gateway state -/

/-- The mutable state of a `GraphQLGateway` instance, plus the two broker /
settings facts the handlers branch on (`this.broker.logger` truthiness and
`this.settings.onSchemaDiscovery` presence). -/
structure Gateway where
  requiredGraphQLTypes : List String
  discoveredGraphQLTypes : List String
  connectedServices : List (String × StoredService)
  schema : Option GraphQLSchemaObj
  loggerPresent : Bool
  onSchemaDiscoveryPresent : Bool
deriving DecidableEq

/-- A freshly constructed gateway: empty registry and dependency sets, no
composite schema installed. -/
def initGateway (loggerPresent onSchemaDiscoveryPresent : Bool) : Gateway :=
  { requiredGraphQLTypes := []
    discoveredGraphQLTypes := []
    connectedServices := []
    schema := none
    loggerPresent := loggerPresent
    onSchemaDiscoveryPresent := onSchemaDiscoveryPresent }

/-- Observable side effects of one handler run: `onSchemaDiscovery`
invocations, `createRemoteSchema` build attempts, `generateSchema` runs, and
`broker.logger.warn` messages (each a list of missing type names). -/
structure Effects where
  discoveryCalls : Nat
  remoteBuildAttempts : List String
  compositions : Nat
  warnings : List (List String)
deriving DecidableEq

def noEffects : Effects :=
  { discoveryCalls := 0, remoteBuildAttempts := [], compositions := 0, warnings := [] }

def Effects.merge (a b : Effects) : Effects :=
  { discoveryCalls := a.discoveryCalls + b.discoveryCalls
    remoteBuildAttempts := a.remoteBuildAttempts ++ b.remoteBuildAttempts
    compositions := a.compositions + b.compositions
    warnings := a.warnings ++ b.warnings }

/-! ## Gateway operations (createRemoteSchema.js revision of GraphQLGateway) -/

/-- The primary-type filter of `buildRemoteSchema` / `removeExecutableSchema`:
object type definitions whose name is neither `Mutation` nor `Query`. -/
def isPrimaryObjectType : Definition → Bool
  | .objectTypeDefinition name _ => !(["Mutation", "Query"].contains name)
  | _ => false

/-- `parse(schema).definitions.filter(...).map(d => d.name.value)`. -/
def definedTypesOf (doc : DocumentNode) : List String :=
  (doc.definitions.filter isPrimaryObjectType).map Definition.nameValue

/-- `getConnectedServiceNames`: keys of `connectedServices` whose entry has a
populated `remoteExecutableSchema`. -/
def getConnectedServiceNames (g : Gateway) : List String :=
  (g.connectedServices.filter (fun p => p.2.remoteExecutableSchema.isSome)).map Prod.fst

/-- `buildRemoteSchema`: run `createRemoteSchema` for the service (outcome
given by `buildOk`; a rejected introspection aborts the handler before any
bookkeeping), then add the fragment's primary types to
`discoveredGraphQLTypes` and, when a relationship document is present, its
related types to `requiredGraphQLTypes`. -/
def buildRemoteSchema (g : Gateway) (d : RemoteSchemaDefinition) (buildOk : Bool) :
    Gateway × Effects :=
  let eff := { noEffects with remoteBuildAttempts := [d.serviceName] }
  if buildOk then
    let g :=
      { g with connectedServices :=
          g.connectedServices.map (fun p : String × StoredService =>
            if p.1 == d.serviceName then
              (p.1, { p.2 with remoteExecutableSchema := some { service := d.serviceName } })
            else p) }
    let definedTypes := definedTypesOf d.schema.parsed
    let g := { g with discoveredGraphQLTypes :=
                 concatDifference g.discoveredGraphQLTypes definedTypes }
    let g :=
      match d.relationships with
      | some rel =>
          { g with requiredGraphQLTypes :=
              concatDifference g.requiredGraphQLTypes (getRelatedTypes rel.parsed) }
      | none => g
    (g, eff)
  else
    (g, eff)

/-- Modelled from the spec: the source of `buildRelationalResolvers` is
imported by the gateway but absent from the repository snapshot; per §4.4 it
wires each relationship field to delegate to the owning service's remote
operation.  For `generateSchema`'s purposes it packages the merged
relation-definition map. -/
def buildRelationalResolvers
    (relationDefinitions : List (String × List (String × RelationDefinition))) :
    List (String × List (String × RelationDefinition)) :=
  relationDefinitions

/-- The input-collection loop of `generateSchema`: for each built connected
service, its remote executable schema, its relationship document (when
present), and its relation definitions. -/
def collectMergeInputs (g : Gateway) : MergeInputs :=
  let names := getConnectedServiceNames g
  let remoteSchemas := names.foldr
    (fun n acc =>
      match (g.connectedServices.lookup n).bind (fun s => s.remoteExecutableSchema) with
      | some r => MergeMember.remote r :: acc
      | none => acc) []
  let relationshipSchemas := names.foldr
    (fun n acc =>
      match (g.connectedServices.lookup n).bind (fun s => s.defn.relationships) with
      | some rel => MergeMember.relationshipText rel.text :: acc
      | none => acc) []
  let relationDefinitions := names.foldr
    (fun n acc =>
      match g.connectedServices.lookup n with
      | some s => (n, s.defn.relationDefinitions) :: acc
      | none => acc) []
  { schemas := remoteSchemas ++ relationshipSchemas
    resolverDefinitions := buildRelationalResolvers relationDefinitions }

/-- `generateSchema`: collect the remote schemas, relationship documents and
relation definitions of all built connected services, merge them, install the
result, then install the alphabetized result. -/
def generateSchema (stitch : MergeInputs → List (String × Nat)) (g : Gateway) :
    Gateway × Effects :=
  let merged := mergeSchemas stitch (collectMergeInputs g)
  let final := alphabetizeSchema merged
  ({ g with schema := some final }, { noEffects with compositions := 1 })

/-- `rebuildSchema`: only when a composite schema already exists, compute the
outstanding set `required − discovered`; if non-empty, warn (when the broker
has a logger) and return; otherwise regenerate the schema. -/
def rebuildSchema (stitch : MergeInputs → List (String × Nat)) (g : Gateway) :
    Gateway × Effects :=
  match g.schema with
  | some _ =>
    let required := lodashDifference g.requiredGraphQLTypes g.discoveredGraphQLTypes
    if required.length > 0 then
      (g, { noEffects with warnings := if g.loggerPresent then [required] else [] })
    else
      generateSchema stitch g
  | none => (g, noEffects)

/-- The `changed` computation of `handleServiceConnected`: a stored record
exists and differs in raw schema text, raw relationship text, or (deep,
key-order-irrelevant) relation-definition equality; an unknown service always
proceeds. -/
def connectChanged (g : Gateway) (d : RemoteSchemaDefinition) : Bool :=
  match g.connectedServices.lookup d.serviceName with
  | some cur =>
      (d.schema.text != cur.defn.schema.text) ||
      (d.relationships.map RawDoc.text != cur.defn.relationships.map RawDoc.text) ||
      !(relDefsEq d.relationDefinitions cur.defn.relationDefinitions)
  | none => true

/-- `this.connectedServices[serviceName] = remoteSchemaDef`: store the
broadcast payload (a fresh broadcast object carries no
`remoteExecutableSchema`). -/
def registerService (g : Gateway) (d : RemoteSchemaDefinition) : Gateway :=
  { g with connectedServices := setKey g.connectedServices d.serviceName ⟨d, none⟩ }

/-- `handleServiceConnected`: return early on an unchanged duplicate
broadcast; otherwise invoke the discovery hook, store the record, build the
remote schema (a failed build rejects the handler before `rebuildSchema`),
and run the rebuild policy. -/
def handleServiceConnected (stitch : MergeInputs → List (String × Nat))
    (g : Gateway) (d : RemoteSchemaDefinition) (buildOk : Bool) : Gateway × Effects :=
  if connectChanged g d then
    let eff0 := { noEffects with
                  discoveryCalls := if g.onSchemaDiscoveryPresent then 1 else 0 }
    let built := buildRemoteSchema (registerService g d) d buildOk
    if buildOk then
      let rebuilt := rebuildSchema stitch built.1
      (rebuilt.1, (eff0.merge built.2).merge rebuilt.2)
    else
      (built.1, eff0.merge built.2)
  else
    (g, noEffects)

/-- `removeExecutableSchema` (the body of `handleServiceDisconnected`): drop
the disconnecting fragment's primary types from `discoveredGraphQLTypes`,
delete the registry entry, and re-run the rebuild policy. -/
def removeExecutableSchema (stitch : MergeInputs → List (String × Nat))
    (g : Gateway) (d : RemoteSchemaDefinition) : Gateway × Effects :=
  let definedTypes := definedTypesOf d.schema.parsed
  let g := { g with discoveredGraphQLTypes :=
               lodashDifference g.discoveredGraphQLTypes definedTypes }
  let g := { g with connectedServices := delKey g.connectedServices d.serviceName }
  rebuildSchema stitch g

/-! ## Lifecycle events and traces -/

/-- A broker lifecycle broadcast, tagged for `connected` with the outcome of
the remote introspection/build step. -/
inductive GatewayEvent
  | connected (d : RemoteSchemaDefinition) (buildOk : Bool)
  | disconnected (d : RemoteSchemaDefinition)
deriving DecidableEq

def applyEvent (stitch : MergeInputs → List (String × Nat)) (g : Gateway) :
    GatewayEvent → Gateway × Effects
  | .connected d buildOk => handleServiceConnected stitch g d buildOk
  | .disconnected d => removeExecutableSchema stitch g d

/-- Run a sequence of lifecycle events against a gateway (the broker delivers
them one at a time). -/
def runEvents (stitch : MergeInputs → List (String × Nat)) (g : Gateway) :
    List GatewayEvent → Gateway
  | [] => g
  | e :: rest => runEvents stitch (applyEvent stitch g e).1 rest

/-! ## The exposed graphql RPC action -/

/-- What the gateway's `graphql` action does with a call: the handler is
`ctx => execute(this.schema, ctx.params.query, null, null, ctx.params.variables)`,
i.e. it hands the current schema reference (possibly null) to the external
execution engine.  A `notReadyError` constructor exists so the spec's demanded
behaviour is expressible. -/
inductive RpcOutcome
  | executed (schema : Option GraphQLSchemaObj) (query : String)
  | notReadyError
deriving DecidableEq

/-- The `graphql` action handler registered by the gateway's service. -/
def graphqlActionHandler (g : Gateway) (query : String) : RpcOutcome :=
  .executed g.schema query

/-! ## start: the convergence waiter -/

/-- The success condition checked on each polling iteration of `start`: at
least one built service is connected, no required type is outstanding, and
every expected service is connected (`shouldRetry` stays false). -/
def startConverged (g : Gateway) (expectedServices : List String) : Bool :=
  let connectedServices := getConnectedServiceNames g
  !connectedServices.isEmpty &&
    (lodashDifference g.requiredGraphQLTypes g.discoveredGraphQLTypes).isEmpty &&
    (lodashDifference expectedServices connectedServices).isEmpty

/-- The outcome of the recursive `start` waiter. -/
inductive StartOutcome
  | timeoutError (totalTime : Nat)
  | ready (tick : Nat) (totalTime : Nat)
  | fuelExhausted
deriving DecidableEq

/-- The recursive polling loop of `start(totalTime)`: first fail with a
Timeout error when the accumulated time exceeds `waitTimeout`; otherwise
check convergence against the gateway state visible on this iteration
(`gAt tick`), succeeding with one composition, or sleep and recurse with
`totalTime + computeTimeDiff(startTime)` (the measured iteration time
`elapsed tick`, never less than the poll interval).  `fuel` bounds the
modelled recursion depth; the theorems pick it large enough that the loop
never runs out. -/
def startAux (gAt : Nat → Gateway) (expected : List String) (waitTimeout : Nat)
    (elapsed : Nat → Nat) : Nat → Nat → Nat → StartOutcome
  | 0, _, _ => .fuelExhausted
  | fuel + 1, tick, totalTime =>
    if waitTimeout < totalTime then .timeoutError totalTime
    else if startConverged (gAt tick) expected then .ready tick totalTime
    else startAux gAt expected waitTimeout elapsed fuel (tick + 1) (totalTime + elapsed tick)

/-! ## The install/mutate trace of generateSchema (for the atomicity claim)

`generateSchema` runs `this.schema = mergeSchemas(...)` — installing a fresh
schema object (id 0) — then `this.schema = this.alphabetizeSchema(this.schema)`,
which mutates that same object's `_fields` in place exactly when the query
field names are out of order and re-installs the same reference. -/

/-- A heap-level operation on schema objects performed by `generateSchema`. -/
inductive SchemaOp
  | installReference (objId : Nat)
  | mutateObject (objId : Nat)
deriving DecidableEq

/-- The object-level operation trace of one `generateSchema` run. -/
def generateSchemaOps (stitch : MergeInputs → List (String × Nat)) (g : Gateway) :
    List SchemaOp :=
  let merged := mergeSchemas stitch (collectMergeInputs g)
  let unordered := merged.queryFields.map Prod.fst
  let ordered := List.insertionSort (fun a b : String => a.data ≤ b.data) unordered
  [SchemaOp.installReference 0] ++
    (if unordered ≠ ordered then [SchemaOp.mutateObject 0] else []) ++
    [SchemaOp.installReference 0]

/-- Whether a trace mutates an object after some earlier step installed it as
the gateway's schema reference (`installed` carries the already-installed
object ids). -/
def mutatesInstalled : List SchemaOp → List Nat → Bool
  | [], _ => false
  | SchemaOp.installReference r :: rest, installed => mutatesInstalled rest (r :: installed)
  | SchemaOp.mutateObject r :: rest, installed =>
      installed.contains r || mutatesInstalled rest installed

/-! ## Relationship-field resolution (buildRelationalResolvers) -/

/-- A JSON-like runtime value flowing through resolvers. -/
inductive JsValue
  | vnull
  | vint (n : Int)
  | vstr (s : String)
  | vobj (fields : List (String × JsValue))

/-- Modelled from the spec: property access along a path of keys; any missing
key or non-object intermediate yields null rather than raising (the `selectn`
behaviour the spec's argument binding relies on). -/
def selectPath : JsValue → List String → JsValue
  | v, [] => v
  | .vobj fields, k :: rest =>
      (match fields.lookup k with
       | some v => selectPath v rest
       | none => .vnull)
  | _, _ :: _ => .vnull

/-- Split a list of characters on a separator character. -/
def splitChars (sep : Char) : List Char → List (List Char)
  | [] => [[]]
  | c :: rest =>
    match splitChars sep rest with
    | [] => [[]]
    | cur :: parts => if c = sep then [] :: cur :: parts else (c :: cur) :: parts

/-- Split a dotted path string into its components. -/
def splitDotted (s : String) : List String :=
  (splitChars '.' s.toList).map (fun cs => String.mk cs)

/-- Modelled from the spec: a dotted `sourcePath` such as `parent.id` is
rooted at the resolving parent object and read off it at call time. -/
def evalSourcePath (parent : JsValue) (path : String) : JsValue :=
  match splitDotted path with
  | "parent" :: rest => selectPath parent rest
  | _ => .vnull

/-- The remote call issued for one relationship field: operation kind and name
against the owning service, with the substituted arguments. -/
structure RemoteInvocation where
  service : String
  opKind : String
  operationName : String
  args : List (String × JsValue)

/-- Modelled from the spec: the resolver `buildRelationalResolvers` wires for
one relationship field (its source file is absent from the repository
snapshot; §4.4: delegate the bound query/mutation operation to the owning
service, substituting each declared argument by reading its bound dotted path
off the resolving parent object). -/
def resolveRelationField (service : String) (defn : RelationDefinition)
    (parent : JsValue) : RemoteInvocation :=
  { service := service
    opKind := defn.opKind
    operationName := defn.operationName
    args := defn.args.map (fun p => (p.1, evalSourcePath parent p.2)) }

/-! ## Claim-side descriptions and trace invariants -/

/-- The service identities currently registered. -/
def serviceNames (g : Gateway) : List String :=
  g.connectedServices.map Prod.fst

/-- The union described by the discovered-set claim: primary type names of the
currently registered services that have a built remote schema (stated from
the claim's words, to be compared with the code's `discoveredGraphQLTypes`). -/
def registeredBuiltPrimaryTypes (g : Gateway) : List String :=
  (g.connectedServices.filter (fun p => p.2.remoteExecutableSchema.isSome)).foldr
    (fun p acc => definedTypesOf p.2.defn.schema.parsed ++ acc) []

/-- The per-extension contribution described by the relationship-extractor
claim: the base named type of every field of a type-extension definition,
nothing for any other definition kind (stated from the claim's words, to be
compared with the code's `getRelatedTypes`). -/
def relatedTypesOfDefinition : Definition → List String
  | .typeExtensionDefinition _ fields => fields.map (fun f => getNamedTypeName f.fieldType)
  | _ => []

/-- Assumptions on one lifecycle event under which the incremental discovered
set can track the registry: the build succeeds, and the identity announces a
fragment whose primary types are the fixed set `typesOf identity`. -/
def eventWellFormed (typesOf : String → List String) : GatewayEvent → Prop
  | .connected d ok => ok = true ∧ definedTypesOf d.schema.parsed = typesOf d.serviceName
  | .disconnected d => definedTypesOf d.schema.parsed = typesOf d.serviceName

/-- The discovered-set invariant: every registered service is built with
fragment types `typesOf`, and `discoveredGraphQLTypes` holds exactly the
types of the registered identities. -/
def DiscoveredInv (typesOf : String → List String) (g : Gateway) : Prop :=
  (∀ p ∈ g.connectedServices,
      p.2.remoteExecutableSchema.isSome = true ∧
      definedTypesOf p.2.defn.schema.parsed = typesOf p.1) ∧
  (∀ x : String, x ∈ g.discoveredGraphQLTypes ↔ ∃ n, n ∈ serviceNames g ∧ x ∈ typesOf n)

/-! ## Concrete sample data (used by witnesses and counterexamples) -/

/-- A trivial external stitcher producing an empty root query field map. -/
def stitch0 : MergeInputs → List (String × Nat) :=
  fun _ => []

/-- An external stitcher whose root query field map is out of lexicographic
order. -/
def stitchUnsorted : MergeInputs → List (String × Nat) :=
  fun _ => [("books", 0), ("authors", 1)]

/-- The parsed Author fragment of the test suite: primary type `Author` plus
root types. -/
def authorDoc : DocumentNode :=
  ⟨[.objectTypeDefinition "Author" [⟨"id", .namedType "Int"⟩, ⟨"name", .namedType "String"⟩],
    .objectTypeDefinition "Query" [⟨"author", .namedType "Author"⟩],
    .otherDefinition "UpdateAuthorInput",
    .objectTypeDefinition "Mutation" [⟨"updateAuthor", .namedType "UpdateAuthorPayload"⟩]]⟩

/-- The parsed Book fragment: primary type `Book`. -/
def bookDoc : DocumentNode :=
  ⟨[.objectTypeDefinition "Book" [⟨"id", .namedType "Int"⟩, ⟨"authorId", .namedType "Int"⟩],
    .objectTypeDefinition "Query" [⟨"books", .listType (.namedType "Book")⟩]]⟩

/-- The parsed Book relationship document:
`extend type Book { author: Author, chapters: [Chapter] }`. -/
def bookRelationshipsDoc : DocumentNode :=
  ⟨[.typeExtensionDefinition "Book"
      [⟨"author", .namedType "Author"⟩,
       ⟨"chapters", .listType (.namedType "Chapter")⟩]]⟩

def bookRelDefs : List (String × RelationDefinition) :=
  [("chapters", ⟨"query", "chaptersInBook", [("bookId", "parent.id")]⟩),
   ("author", ⟨"query", "author", [("id", "parent.authorId")]⟩)]

/-- The same relation-definition map with its keys announced in the other
order (structurally equal, key order irrelevant). -/
def bookRelDefsPermuted : List (String × RelationDefinition) :=
  [("author", ⟨"query", "author", [("id", "parent.authorId")]⟩),
   ("chapters", ⟨"query", "chaptersInBook", [("bookId", "parent.id")]⟩)]

def authorDef : RemoteSchemaDefinition :=
  { schema := ⟨"type Author { id: Int name: String }", authorDoc⟩
    relationships := none
    relationDefinitions := []
    serviceName := "Author" }

def bookDef : RemoteSchemaDefinition :=
  { schema := ⟨"type Book { id: Int authorId: Int }", bookDoc⟩
    relationships := some ⟨"extend type Book { author: Author chapters: [Chapter] }", bookRelationshipsDoc⟩
    relationDefinitions := bookRelDefs
    serviceName := "Book" }

/-- A duplicate Book broadcast: identical fragment and relationship text,
relation definitions deeply equal but with keys in a different order. -/
def bookDefPermuted : RemoteSchemaDefinition :=
  { bookDef with relationDefinitions := bookRelDefsPermuted }

/-- A gateway that has registered and built the Book service (and no
composite schema yet). -/
def gBook : Gateway :=
  { requiredGraphQLTypes := ["Author", "Chapter"]
    discoveredGraphQLTypes := ["Book"]
    connectedServices := [("Book", ⟨bookDef, some ⟨"Book"⟩⟩)]
    schema := none
    loggerPresent := true
    onSchemaDiscoveryPresent := true }

/-- The parsed Chapter fragment: primary type `Chapter`. -/
def chapterDoc : DocumentNode :=
  ⟨[.objectTypeDefinition "Chapter" [⟨"id", .namedType "Int"⟩, ⟨"bookId", .namedType "Int"⟩],
    .objectTypeDefinition "Query" [⟨"chaptersInBook", .listType (.namedType "Chapter")⟩]]⟩

/-- A Chapter relationship document with a scalar-typed field and a repeated
base type: `extend type Chapter { book: Book, pages: Int!, sequel: [Book!] }`. -/
def chapterPagesRelationshipsDoc : DocumentNode :=
  ⟨[.typeExtensionDefinition "Chapter"
      [⟨"book", .namedType "Book"⟩,
       ⟨"pages", .nonNullType (.namedType "Int")⟩,
       ⟨"sequel", .listType (.nonNullType (.namedType "Book"))⟩]]⟩

def chapterPagesDef : RemoteSchemaDefinition :=
  { schema := ⟨"type Chapter { id: Int bookId: Int }", chapterDoc⟩
    relationships := some ⟨"extend type Chapter { book: Book pages: Int! sequel: [Book!] }",
                           chapterPagesRelationshipsDoc⟩
    relationDefinitions := [("book", ⟨"query", "book", [("id", "parent.bookId")]⟩)]
    serviceName := "Chapter" }

/-- An installed composite schema value with an empty field map (as produced
by `stitch0`). -/
def emptySchemaObj : GraphQLSchemaObj :=
  ⟨⟨[], []⟩, []⟩

/-- A fresh gateway that has already installed a composite schema (as after a
successful `start`). -/
def gReady0 : Gateway :=
  { initGateway true false with schema := some emptySchemaObj }

/-- A fragment for a service `A` declaring primary type `X`. -/
def svcAX : RemoteSchemaDefinition :=
  { schema := ⟨"type X { a: Int } # A", ⟨[.objectTypeDefinition "X" [⟨"a", .namedType "Int"⟩]]⟩⟩
    relationships := none
    relationDefinitions := []
    serviceName := "A" }

/-- A fragment for a distinct service `B` also declaring primary type `X`. -/
def svcBX : RemoteSchemaDefinition :=
  { schema := ⟨"type X { a: Int } # B", ⟨[.objectTypeDefinition "X" [⟨"a", .namedType "Int"⟩]]⟩⟩
    relationships := none
    relationDefinitions := []
    serviceName := "B" }

/-! # Helper lemmas -/

theorem buildRemoteSchema_schema (g : Gateway) (d : RemoteSchemaDefinition) (ok : Bool) :
    (buildRemoteSchema g d ok).1.schema = g.schema := by
  cases ok <;> cases h : d.relationships <;> simp [buildRemoteSchema, h]

theorem rebuildSchema_of_none (stitch : MergeInputs → List (String × Nat)) (g : Gateway)
    (h : g.schema = none) : rebuildSchema stitch g = (g, noEffects) := by
  unfold rebuildSchema
  rw [h]

theorem handleServiceConnected_schema_none (stitch : MergeInputs → List (String × Nat))
    (g : Gateway) (d : RemoteSchemaDefinition) (ok : Bool) (h : g.schema = none) :
    (handleServiceConnected stitch g d ok).1.schema = none := by
  unfold handleServiceConnected
  by_cases hc : connectChanged g d = true
  · have h1 : (registerService g d).schema = none := h
    have h2 : (buildRemoteSchema (registerService g d) d ok).1.schema = none := by
      rw [buildRemoteSchema_schema]; exact h1
    cases ok with
    | true =>
      simp only [hc, if_true]
      rw [rebuildSchema_of_none stitch _ h2]
      exact h2
    | false =>
      simp only [hc, if_true, Bool.false_eq_true, if_false]
      exact h2
  · simp only [Bool.not_eq_true] at hc
    simp [hc, h]

theorem removeExecutableSchema_schema_none (stitch : MergeInputs → List (String × Nat))
    (g : Gateway) (d : RemoteSchemaDefinition) (h : g.schema = none) :
    (removeExecutableSchema stitch g d).1.schema = none := by
  unfold removeExecutableSchema
  rw [rebuildSchema_of_none]
  · exact h
  · exact h

theorem applyEvent_schema_none (stitch : MergeInputs → List (String × Nat))
    (g : Gateway) (e : GatewayEvent) (h : g.schema = none) :
    (applyEvent stitch g e).1.schema = none := by
  cases e with
  | connected d ok => exact handleServiceConnected_schema_none stitch g d ok h
  | disconnected d => exact removeExecutableSchema_schema_none stitch g d h

theorem runEvents_schema_none (stitch : MergeInputs → List (String × Nat))
    (evts : List GatewayEvent) (g : Gateway) (h : g.schema = none) :
    (runEvents stitch g evts).schema = none := by
  induction evts generalizing g with
  | nil => exact h
  | cons e rest ih =>
    exact ih _ (applyEvent_schema_none stitch g e h)

/-! # Claim C1 — graphql RPC action before any composition -/

/-- C1 (counterexample): on a fresh gateway, where no composition has yet
succeeded, a call to the exposed graphql RPC action does not fail with a
NotReady error — the handler passes the null schema reference straight to the
external execution engine. -/
theorem c1_counterexample :
    graphqlActionHandler (initGateway true false) "query Q" =
      RpcOutcome.executed none "query Q" ∧
    graphqlActionHandler (initGateway true false) "query Q" ≠
      RpcOutcome.notReadyError :=
  ⟨rfl, by decide⟩

/-- C1 (amended): the gateway's graphql action handler never produces a
NotReady error; it always hands the current schema reference to the execution
engine, and since lifecycle event handling alone never installs a first
composite schema, after every event trace on a fresh gateway the action
executes the query against the null schema. -/
theorem c1_amended (stitch : MergeInputs → List (String × Nat))
    (evts : List GatewayEvent) (lp hp : Bool) (q : String) :
    graphqlActionHandler (runEvents stitch (initGateway lp hp) evts) q =
      RpcOutcome.executed none q := by
  unfold graphqlActionHandler
  rw [runEvents_schema_none stitch evts _ rfl]

/-! # Claim C3 — duplicate connect events are no-ops -/

/-- C3: a connect event whose identity is already registered and whose
fragment text, relationship text, and relation-definition map are
structurally equal (deep equality, key order irrelevant) to the stored record
is a complete no-op: the gateway state is returned unchanged — the stored
record is untouched — and no discovery hook, remote build, composition or
warning is performed. -/
theorem c3_duplicate_connect_noop (stitch : MergeInputs → List (String × Nat))
    (g : Gateway) (d : RemoteSchemaDefinition) (ok : Bool) (cur : StoredService)
    (hreg : g.connectedServices.lookup d.serviceName = some cur)
    (hschema : d.schema.text = cur.defn.schema.text)
    (hrel : d.relationships.map RawDoc.text = cur.defn.relationships.map RawDoc.text)
    (hdefs : relDefsEq d.relationDefinitions cur.defn.relationDefinitions = true) :
    handleServiceConnected stitch g d ok = (g, noEffects) := by
  have hc : connectChanged g d = false := by
    unfold connectChanged
    rw [hreg]
    simp [hschema, hrel, hdefs]
  unfold handleServiceConnected
  simp [hc]

/-- C3 witness: the gateway holding the Book record treats a duplicate Book
broadcast — identical schema and relationship text, relation definitions
deeply equal with keys permuted — as a no-op. -/
theorem c3_witness :
    gBook.connectedServices.lookup bookDefPermuted.serviceName =
        some ⟨bookDef, some ⟨"Book"⟩⟩ ∧
    bookDefPermuted.schema.text = bookDef.schema.text ∧
    bookDefPermuted.relationships.map RawDoc.text =
        bookDef.relationships.map RawDoc.text ∧
    relDefsEq bookDefPermuted.relationDefinitions bookDef.relationDefinitions = true ∧
    handleServiceConnected stitch0 gBook bookDefPermuted true = (gBook, noEffects) :=
  ⟨by decide, rfl, rfl, by decide,
    c3_duplicate_connect_noop stitch0 gBook bookDefPermuted true ⟨bookDef, some ⟨"Book"⟩⟩
      (by decide) rfl rfl (by decide)⟩

/-! # Claim C7 — determinism pass: sorted order and idempotence -/

theorem alphabetizeSchema_of_sorted (s : GraphQLSchemaObj)
    (h : s.queryFields.map Prod.fst =
      List.insertionSort (fun a b : String => a.data ≤ b.data) (s.queryFields.map Prod.fst)) :
    alphabetizeSchema s = s := by
  simp only [alphabetizeSchema]
  rw [if_neg (fun hne => hne h)]

theorem alphabetizeSchema_keys (s : GraphQLSchemaObj) :
    (alphabetizeSchema s).queryFields.map Prod.fst =
      List.insertionSort (fun a b : String => a.data ≤ b.data) (s.queryFields.map Prod.fst) := by
  by_cases h : s.queryFields.map Prod.fst =
      List.insertionSort (fun a b : String => a.data ≤ b.data) (s.queryFields.map Prod.fst)
  · rw [alphabetizeSchema_of_sorted s h]
    exact h
  · simp only [alphabetizeSchema]
    rw [if_pos h]
    simp only [List.map_map]
    have hid : (Prod.fst ∘ fun field : String =>
        (field, ((s.queryFields).lookup field).getD 0)) = id := rfl
    rw [hid, List.map_id]

/-- C7: the determinism pass and composition are deterministic: (i) the pass
re-orders the root query type's field map lexicographically by field name;
(ii) the pass is idempotent; (iii) composing a second time over the unchanged
registry state installs the same composite schema, so the printed output of
the two compositions is textually identical. -/
theorem c7_determinism_pass (stitch : MergeInputs → List (String × Nat))
    (g : Gateway) (s : GraphQLSchemaObj) :
    (alphabetizeSchema s).queryFields.map Prod.fst =
        List.insertionSort (fun a b : String => a.data ≤ b.data) (s.queryFields.map Prod.fst) ∧
    alphabetizeSchema (alphabetizeSchema s) = alphabetizeSchema s ∧
    (generateSchema stitch (generateSchema stitch g).1).1.schema =
        (generateSchema stitch g).1.schema ∧
    (generateSchema stitch (generateSchema stitch g).1).1.schema.map printSchemaText =
        (generateSchema stitch g).1.schema.map printSchemaText := by
  refine ⟨alphabetizeSchema_keys s, ?_, ?_, ?_⟩
  · apply alphabetizeSchema_of_sorted
    rw [alphabetizeSchema_keys s]
    exact ((List.sorted_insertionSort _ _).insertionSort_eq).symm
  · rfl
  · rfl

/-! # Claim C10 — the relationship extractor -/

theorem getNamedTypeNode_named (t : TypeNode) :
    getNamedTypeNode t = TypeNode.namedType (getNamedTypeName t) := by
  induction t with
  | namedType n => rfl
  | listType t ih => exact ih
  | nonNullType t ih => exact ih

theorem getRelatedTypes_go (defs : List Definition) (acc : List String) :
    defs.foldl (fun types d =>
      match d with
      | .typeExtensionDefinition _ fields =>
          types ++ fields.map (fun field => getNamedTypeName field.fieldType)
      | _ => types) acc = acc ++ defs.flatMap relatedTypesOfDefinition := by
  induction defs generalizing acc with
  | nil => simp
  | cons d rest ih =>
    cases d with
    | typeExtensionDefinition n fields =>
      simp only [List.foldl_cons, List.flatMap_cons, relatedTypesOfDefinition, ih,
        List.append_assoc]
    | objectTypeDefinition n fields =>
      simp only [List.foldl_cons, List.flatMap_cons, relatedTypesOfDefinition, ih,
        List.nil_append, List.append_nil]
    | otherDefinition n =>
      simp only [List.foldl_cons, List.flatMap_cons, relatedTypesOfDefinition, ih,
        List.nil_append, List.append_nil]

theorem getRelatedTypes_eq (doc : DocumentNode) :
    getRelatedTypes doc = doc.definitions.flatMap relatedTypesOfDefinition := by
  unfold getRelatedTypes
  rw [getRelatedTypes_go]
  simp

/-- C10: `getRelatedTypes` returns exactly the base named type name of every
field of every type-extension definition — `getNamedTypeNode` unwraps any
number of ListType/NonNullType wrappers down to the named node — with no
deduplication and no filtering: on the Chapter extension it keeps the
duplicate `Book` and the scalar `Int`, and connecting that service puts `Int`
into the required set even though it is not among the discovered primary
types. -/
theorem c10_getRelatedTypes_exact :
    (∀ t : TypeNode, getNamedTypeNode t = TypeNode.namedType (getNamedTypeName t)) ∧
    (∀ doc : DocumentNode,
        getRelatedTypes doc = doc.definitions.flatMap relatedTypesOfDefinition) ∧
    getRelatedTypes chapterPagesRelationshipsDoc = ["Book", "Int", "Book"] ∧
    "Int" ∈ (handleServiceConnected stitch0 (initGateway true false)
        chapterPagesDef true).1.requiredGraphQLTypes ∧
    "Int" ∉ (handleServiceConnected stitch0 (initGateway true false)
        chapterPagesDef true).1.discoveredGraphQLTypes :=
  ⟨getNamedTypeNode_named, getRelatedTypes_eq, by decide, by decide, by decide⟩

/-! # Claim C9 — relationship-field resolution -/

/-- C9: resolving a relationship field invokes the bound remote operation
(kind and name from the relation definition) against the owning service,
substituting every declared argument by reading its bound dotted path off the
resolving parent object; concretely, `args: { authorId: "parent.id" }` on a
parent `{id: 7, name: "A"}` invokes the operation with `authorId = 7`, and
the same binding on a parent without an `id` yields a null argument (the
resolution function is total — no exception is raised). -/
theorem c9_relationship_resolution :
    (∀ (svc : String) (defn : RelationDefinition) (parent : JsValue),
        (resolveRelationField svc defn parent).service = svc ∧
        (resolveRelationField svc defn parent).opKind = defn.opKind ∧
        (resolveRelationField svc defn parent).operationName = defn.operationName ∧
        (resolveRelationField svc defn parent).args =
          defn.args.map (fun p => (p.1, evalSourcePath parent p.2))) ∧
    (resolveRelationField "Author" ⟨"query", "author", [("authorId", "parent.id")]⟩
        (.vobj [("id", .vint 7), ("name", .vstr "A")])).args =
      [("authorId", .vint 7)] ∧
    (resolveRelationField "Author" ⟨"query", "author", [("authorId", "parent.id")]⟩
        (.vobj [("name", .vstr "A")])).args =
      [("authorId", .vnull)] :=
  ⟨fun _ _ _ => ⟨rfl, rfl, rfl, rfl⟩, rfl, rfl⟩

/-! # Claim C5 — rebuild policy with outstanding dependencies -/

/-- C5 (counterexample): a connect event leaving the outstanding set
non-empty while no composite schema is installed emits no diagnostic warning
at all (the rebuild policy is gated on an existing schema), contradicting the
claim that a warning naming the missing types is always emitted. -/
theorem c5_counterexample :
    lodashDifference
        (handleServiceConnected stitch0 (initGateway true false) bookDef true).1.requiredGraphQLTypes
        (handleServiceConnected stitch0 (initGateway true false) bookDef true).1.discoveredGraphQLTypes
      ≠ [] ∧
    (initGateway true false).loggerPresent = true ∧
    (handleServiceConnected stitch0 (initGateway true false) bookDef true).2.warnings = [] ∧
    (handleServiceConnected stitch0 (initGateway true false) bookDef true).2.compositions = 0 := by
  decide

/-- C5 (amended): whenever the rebuild policy runs with a non-empty
outstanding set `required − discovered` AND a composite schema is already
installed, no composition is performed, a diagnostic warning naming exactly
the missing type names is emitted (the broker having a logger), the installed
composite schema and all other state remain unchanged, and the call returns
normally; when no composite schema is installed the policy is instead a
complete no-op (no warning either). -/
theorem c5_amended (stitch : MergeInputs → List (String × Nat)) (g : Gateway)
    (s : GraphQLSchemaObj) (hs : g.schema = some s) (hl : g.loggerPresent = true)
    (hmiss : lodashDifference g.requiredGraphQLTypes g.discoveredGraphQLTypes ≠ []) :
    (rebuildSchema stitch g).1 = g ∧
    (rebuildSchema stitch g).2.compositions = 0 ∧
    (rebuildSchema stitch g).2.warnings =
      [lodashDifference g.requiredGraphQLTypes g.discoveredGraphQLTypes] := by
  have hlen : 0 < (lodashDifference g.requiredGraphQLTypes g.discoveredGraphQLTypes).length :=
    List.length_pos.mpr hmiss
  unfold rebuildSchema
  rw [hs]
  simp [hlen, hl, noEffects]

/-- C5 witness: on the Book-only gateway with an installed (empty) composite
schema, the rebuild policy warns about the missing `Author` and `Chapter`
types, performs no composition, and leaves the state untouched. -/
theorem c5_witness :
    ({ gBook with schema := some ⟨⟨[], []⟩, []⟩ } : Gateway).schema = some ⟨⟨[], []⟩, []⟩ ∧
    ({ gBook with schema := some ⟨⟨[], []⟩, []⟩ } : Gateway).loggerPresent = true ∧
    lodashDifference
        ({ gBook with schema := some ⟨⟨[], []⟩, []⟩ } : Gateway).requiredGraphQLTypes
        ({ gBook with schema := some ⟨⟨[], []⟩, []⟩ } : Gateway).discoveredGraphQLTypes ≠ [] ∧
    (rebuildSchema stitch0 { gBook with schema := some ⟨⟨[], []⟩, []⟩ }).1 =
        { gBook with schema := some ⟨⟨[], []⟩, []⟩ } ∧
    (rebuildSchema stitch0 { gBook with schema := some ⟨⟨[], []⟩, []⟩ }).2.compositions = 0 ∧
    (rebuildSchema stitch0 { gBook with schema := some ⟨⟨[], []⟩, []⟩ }).2.warnings =
        [lodashDifference
          ({ gBook with schema := some ⟨⟨[], []⟩, []⟩ } : Gateway).requiredGraphQLTypes
          ({ gBook with schema := some ⟨⟨[], []⟩, []⟩ } : Gateway).discoveredGraphQLTypes] := by
  refine ⟨rfl, rfl, by decide, ?_⟩
  have h := c5_amended stitch0 { gBook with schema := some ⟨⟨[], []⟩, []⟩ }
    ⟨⟨[], []⟩, []⟩ rfl rfl (by decide)
  exact ⟨h.1, h.2.1, h.2.2⟩

/-! # Claim C6 — composition after a changed connect with no outstanding types -/

theorem buildRemoteSchema_effects (g : Gateway) (d : RemoteSchemaDefinition) (ok : Bool) :
    (buildRemoteSchema g d ok).2 = { noEffects with remoteBuildAttempts := [d.serviceName] } := by
  cases ok <;> cases h : d.relationships <;> simp [buildRemoteSchema, h]

/-- C6 (counterexample): on a fresh gateway (no composite schema installed
yet), a changed connect event with a successful build after which the
outstanding set is empty performs no composition and installs nothing — the
rebuild policy only ever composes when a schema already exists. -/
theorem c6_counterexample :
    connectChanged (initGateway true false) authorDef = true ∧
    lodashDifference
        (handleServiceConnected stitch0 (initGateway true false) authorDef true).1.requiredGraphQLTypes
        (handleServiceConnected stitch0 (initGateway true false) authorDef true).1.discoveredGraphQLTypes
      = [] ∧
    (handleServiceConnected stitch0 (initGateway true false) authorDef true).2.compositions = 0 ∧
    (handleServiceConnected stitch0 (initGateway true false) authorDef true).1.schema = none := by
  decide

/-- C6 (amended): a changed connect event with a successful build after which
the outstanding set `required − discovered` is empty composes and installs a
new composite schema, provided a composite schema had already been installed
before the event; with no prior composite the event composes nothing. -/
theorem c6_amended (stitch : MergeInputs → List (String × Nat)) (g : Gateway)
    (d : RemoteSchemaDefinition) (s : GraphQLSchemaObj)
    (hch : connectChanged g d = true) (hs : g.schema = some s)
    (hout : lodashDifference
        (buildRemoteSchema (registerService g d) d true).1.requiredGraphQLTypes
        (buildRemoteSchema (registerService g d) d true).1.discoveredGraphQLTypes = []) :
    (handleServiceConnected stitch g d true).2.compositions = 1 ∧
    (handleServiceConnected stitch g d true).1.schema =
      some (alphabetizeSchema (mergeSchemas stitch
        (collectMergeInputs (buildRemoteSchema (registerService g d) d true).1))) := by
  have hbs : (buildRemoteSchema (registerService g d) d true).1.schema = some s := by
    rw [buildRemoteSchema_schema]; exact hs
  have hreb : rebuildSchema stitch (buildRemoteSchema (registerService g d) d true).1 =
      generateSchema stitch (buildRemoteSchema (registerService g d) d true).1 := by
    unfold rebuildSchema
    rw [hbs, hout]
    simp
  constructor
  · simp only [handleServiceConnected, hch, if_true, hreb, generateSchema, Effects.merge,
      buildRemoteSchema_effects, noEffects]
  · simp only [handleServiceConnected, hch, if_true, hreb, generateSchema]

/-- C6 witness: on a gateway with an installed composite, connecting the
Author service (no relationships, so nothing outstanding) performs exactly
one composition and installs the alphabetized merge of the new registry
state. -/
theorem c6_witness :
    connectChanged gReady0 authorDef = true ∧
    gReady0.schema = some emptySchemaObj ∧
    lodashDifference
        (buildRemoteSchema (registerService gReady0 authorDef) authorDef true).1.requiredGraphQLTypes
        (buildRemoteSchema (registerService gReady0 authorDef) authorDef true).1.discoveredGraphQLTypes
      = [] ∧
    (handleServiceConnected stitch0 gReady0 authorDef true).2.compositions = 1 ∧
    (handleServiceConnected stitch0 gReady0 authorDef true).1.schema =
      some (alphabetizeSchema (mergeSchemas stitch0
        (collectMergeInputs (buildRemoteSchema (registerService gReady0 authorDef) authorDef true).1))) := by
  refine ⟨by decide, rfl, by decide, ?_⟩
  exact c6_amended stitch0 gReady0 authorDef emptySchemaObj (by decide) rfl (by decide)

/-! # Claim C8 — atomic replacement versus in-place mutation -/

/-- C8 (counterexample): with a stitcher whose merged root query fields are
out of lexicographic order, `generateSchema` first installs the merged schema
object and then the determinism pass mutates that same installed object in
place before re-installing it — the installed schema object is modified after
installation. -/
theorem c8_counterexample :
    generateSchemaOps stitchUnsorted (initGateway true false) =
      [SchemaOp.installReference 0, SchemaOp.mutateObject 0, SchemaOp.installReference 0] ∧
    mutatesInstalled (generateSchemaOps stitchUnsorted (initGateway true false)) [] = true := by
  decide

/-- C8 (amended): every successful composition installs the fully formed
alphabetized merge as the new schema value (the reference is replaced, never
left partial), but the determinism pass mutates the installed schema object
in place exactly when the merged root query field names are out of sorted
order; no suspension point separates the merge-install from the mutation, so
the intermediate object is never observable to another event or call. -/
theorem c8_amended (stitch : MergeInputs → List (String × Nat)) (g : Gateway) :
    (generateSchema stitch g).1.schema =
        some (alphabetizeSchema (mergeSchemas stitch (collectMergeInputs g))) ∧
    (mutatesInstalled (generateSchemaOps stitch g) [] = true ↔
      (mergeSchemas stitch (collectMergeInputs g)).queryFields.map Prod.fst ≠
        List.insertionSort (fun a b : String => a.data ≤ b.data)
          ((mergeSchemas stitch (collectMergeInputs g)).queryFields.map Prod.fst)) := by
  refine ⟨rfl, ?_⟩
  by_cases h : (mergeSchemas stitch (collectMergeInputs g)).queryFields.map Prod.fst =
      List.insertionSort (fun a b : String => a.data ≤ b.data)
        ((mergeSchemas stitch (collectMergeInputs g)).queryFields.map Prod.fst)
  · simp only [generateSchemaOps]
    rw [if_neg (fun hne => hne h)]
    exact iff_of_false (by decide) (fun hne => hne h)
  · simp only [generateSchemaOps]
    rw [if_pos h]
    exact iff_of_true (by decide) h

/-! # Claim C2 — start times out against a never-converging registry -/

theorem startAux_never_ready (gAt : Nat → Gateway) (expected : List String)
    (waitTimeout : Nat) (elapsed : Nat → Nat)
    (hconv : ∀ t, startConverged (gAt t) expected = false) :
    ∀ fuel tick totalTime t tt,
      startAux gAt expected waitTimeout elapsed fuel tick totalTime ≠
        StartOutcome.ready t tt := by
  intro fuel
  induction fuel with
  | zero => intro tick totalTime t tt; simp [startAux]
  | succ f ih =>
    intro tick totalTime t tt
    unfold startAux
    by_cases hto : waitTimeout < totalTime
    · simp [hto]
    · simp only [hto, if_false, hconv tick, Bool.false_eq_true]
      exact ih (tick + 1) (totalTime + elapsed tick) t tt

theorem startAux_times_out (gAt : Nat → Gateway) (expected : List String)
    (waitTimeout interval bound : Nat) (elapsed : Nat → Nat)
    (hconv : ∀ t, startConverged (gAt t) expected = false)
    (hlo : ∀ t, interval ≤ elapsed t) (hhi : ∀ t, elapsed t ≤ bound) :
    ∀ fuel tick totalTime, totalTime ≤ waitTimeout →
      waitTimeout < totalTime + fuel * interval →
      ∃ total, startAux gAt expected waitTimeout elapsed (fuel + 1) tick totalTime =
          StartOutcome.timeoutError total ∧
        waitTimeout < total ∧ total ≤ waitTimeout + bound := by
  intro fuel
  induction fuel with
  | zero =>
    intro tick totalTime hle hlt
    exact absurd (by simpa using hlt) (not_lt.mpr hle)
  | succ f ih =>
    intro tick totalTime hle hlt
    have hstep : startAux gAt expected waitTimeout elapsed (f + 1 + 1) tick totalTime =
        startAux gAt expected waitTimeout elapsed (f + 1) (tick + 1) (totalTime + elapsed tick) := by
      conv_lhs => rw [startAux]
      simp [not_lt.mpr hle, hconv tick]
    by_cases hnext : totalTime + elapsed tick ≤ waitTimeout
    · have hlt' : waitTimeout < totalTime + elapsed tick + f * interval := by
        have h1 : totalTime + (f + 1) * interval ≤ totalTime + elapsed tick + f * interval := by
          have : (f + 1) * interval = interval + f * interval := by ring
          calc totalTime + (f + 1) * interval = totalTime + interval + f * interval := by
                rw [this]; ring
            _ ≤ totalTime + elapsed tick + f * interval := by
                have := hlo tick
                omega
        exact lt_of_lt_of_le hlt h1
      rw [hstep]
      exact ih (tick + 1) (totalTime + elapsed tick) hnext hlt'
    · push_neg at hnext
      refine ⟨totalTime + elapsed tick, ?_, hnext, ?_⟩
      · rw [hstep]
        unfold startAux
        simp [hnext]
      · have := hhi tick
        omega

/-- C2: against a registry that never satisfies the convergence condition,
the recursive `start` waiter fails with a Timeout error once the accumulated
elapsed time exceeds the configured deadline — within one iteration's elapsed
time (about one poll interval) past the deadline — and, being a recursion
that returns at the timeout check, it runs no further polling ticks after
surfacing the Timeout and can never resolve with a schema (no fuel, tick
count, or accumulated time makes it return ready). -/
theorem c2_start_timeout (gAt : Nat → Gateway) (expected : List String)
    (waitTimeout interval bound : Nat) (elapsed : Nat → Nat)
    (hconv : ∀ t, startConverged (gAt t) expected = false)
    (hlo : ∀ t, interval ≤ elapsed t) (hhi : ∀ t, elapsed t ≤ bound)
    (hpos : 0 < interval) :
    (∃ total, startAux gAt expected waitTimeout elapsed (waitTimeout + 2) 0 0 =
        StartOutcome.timeoutError total ∧
      waitTimeout < total ∧ total ≤ waitTimeout + bound) ∧
    (∀ fuel tick totalTime t tt,
        startAux gAt expected waitTimeout elapsed fuel tick totalTime ≠
          StartOutcome.ready t tt) := by
  constructor
  · have hfuel : waitTimeout < 0 + (waitTimeout + 1) * interval := by
      have : waitTimeout + 1 ≤ (waitTimeout + 1) * interval :=
        Nat.le_mul_of_pos_right _ hpos
      omega
    exact startAux_times_out gAt expected waitTimeout interval bound elapsed
      hconv hlo hhi (waitTimeout + 1) 0 0 (Nat.zero_le _) hfuel
  · exact startAux_never_ready gAt expected waitTimeout elapsed hconv

/-- C2 witness: a fresh gateway (no connected services, hence never
converged), deadline 300 ms, poll interval 100 ms: start rejects with a
Timeout error at an accumulated time in (300, 400], and no amount of polling
returns ready. -/
theorem c2_witness :
    (∃ total, startAux (fun _ => initGateway true false) [] 300 (fun _ => 100) 302 0 0 =
        StartOutcome.timeoutError total ∧ 300 < total ∧ total ≤ 400) ∧
    (∀ fuel tick totalTime t tt,
        startAux (fun _ => initGateway true false) [] 300 (fun _ => 100) fuel tick totalTime ≠
          StartOutcome.ready t tt) :=
  c2_start_timeout (fun _ => initGateway true false) [] 300 100 100 (fun _ => 100)
    (fun _ => rfl) (fun _ => le_refl 100) (fun _ => le_refl 100) (by decide)

/-! # Claim C4 — discovered set versus registered built services -/

theorem mem_lodashDifference {x : String} {a b : List String} :
    x ∈ lodashDifference a b ↔ x ∈ a ∧ x ∉ b := by
  simp [lodashDifference]

theorem mem_concatDifference {x : String} {a b : List String} :
    x ∈ concatDifference a b ↔ x ∈ a ∨ x ∈ b := by
  simp only [concatDifference, List.mem_append, mem_lodashDifference]
  tauto

theorem mem_setKey {α : Type} {m : List (String × α)} {k : String} {v : α} {p : String × α}
    (hp : p ∈ setKey m k v) : (p ∈ m ∧ p.1 ≠ k) ∨ p = (k, v) := by
  unfold setKey at hp
  by_cases hany : m.any (fun q => q.1 == k)
  · rw [if_pos hany] at hp
    obtain ⟨q, hq, hqe⟩ := List.mem_map.mp hp
    by_cases hqk : q.1 == k
    · right
      rw [if_pos hqk] at hqe
      exact hqe.symm
    · left
      rw [if_neg hqk] at hqe
      subst hqe
      exact ⟨hq, by simpa using hqk⟩
  · rw [if_neg hany] at hp
    rcases List.mem_append.mp hp with hm | hv
    · left
      refine ⟨hm, fun hk => ?_⟩
      exact hany (List.any_eq_true.mpr ⟨p, hm, by simpa using hk⟩)
    · right
      simpa using hv

theorem names_setKey {α : Type} (m : List (String × α)) (k : String) (v : α) (n : String) :
    n ∈ (setKey m k v).map Prod.fst ↔ n ∈ m.map Prod.fst ∨ n = k := by
  unfold setKey
  by_cases hany : m.any (fun q => q.1 == k)
  · rw [if_pos hany]
    have hmf : (m.map (fun q => if q.1 == k then (k, v) else q)).map Prod.fst =
        m.map Prod.fst := by
      rw [List.map_map]
      refine List.map_congr_left fun q hq => ?_
      by_cases hqk : q.1 == k
      · simp only [Function.comp_apply, if_pos hqk]
        exact (beq_iff_eq.mp hqk).symm
      · simp only [Function.comp_apply, if_neg hqk]
    rw [hmf]
    constructor
    · exact Or.inl
    · rintro (h | rfl)
      · exact h
      · obtain ⟨q, hq, hqk⟩ := List.any_eq_true.mp hany
        exact List.mem_map.mpr ⟨q, hq, beq_iff_eq.mp hqk⟩
  · rw [if_neg hany]
    simp

theorem mem_delKey {α : Type} {m : List (String × α)} {k : String} {p : String × α} :
    p ∈ delKey m k ↔ p ∈ m ∧ p.1 ≠ k := by
  simp [delKey]

theorem names_delKey {α : Type} (m : List (String × α)) (k : String) (n : String) :
    n ∈ (delKey m k).map Prod.fst ↔ n ∈ m.map Prod.fst ∧ n ≠ k := by
  simp only [List.mem_map, mem_delKey]
  constructor
  · rintro ⟨p, ⟨hm, hk⟩, rfl⟩
    exact ⟨⟨p, hm, rfl⟩, hk⟩
  · rintro ⟨⟨p, hm, rfl⟩, hk⟩
    exact ⟨p, ⟨hm, hk⟩, rfl⟩

theorem buildRemoteSchema_connected (g : Gateway) (d : RemoteSchemaDefinition) :
    (buildRemoteSchema g d true).1.connectedServices =
      g.connectedServices.map (fun p : String × StoredService =>
        if p.1 == d.serviceName then
          (p.1, { p.2 with remoteExecutableSchema := some ⟨d.serviceName⟩ }) else p) := by
  cases h : d.relationships <;> simp [buildRemoteSchema, h]

theorem buildRemoteSchema_discovered (g : Gateway) (d : RemoteSchemaDefinition) :
    (buildRemoteSchema g d true).1.discoveredGraphQLTypes =
      concatDifference g.discoveredGraphQLTypes (definedTypesOf d.schema.parsed) := by
  cases h : d.relationships <;> simp [buildRemoteSchema, h]

theorem connect_entries {g : Gateway} {d : RemoteSchemaDefinition}
    {p : String × StoredService}
    (hp : p ∈ (buildRemoteSchema (registerService g d) d true).1.connectedServices) :
    (p ∈ g.connectedServices ∧ p.1 ≠ d.serviceName) ∨
      p = (d.serviceName, ⟨d, some ⟨d.serviceName⟩⟩) := by
  rw [buildRemoteSchema_connected] at hp
  obtain ⟨q, hq, hqe⟩ := List.mem_map.mp hp
  rcases mem_setKey hq with ⟨hqm, hqk⟩ | rfl
  · left
    rw [if_neg (by simpa using hqk)] at hqe
    subst hqe
    exact ⟨hqm, hqk⟩
  · right
    rw [if_pos (by simp)] at hqe
    exact hqe.symm

theorem connect_names (g : Gateway) (d : RemoteSchemaDefinition) (n : String) :
    n ∈ serviceNames (buildRemoteSchema (registerService g d) d true).1 ↔
      n ∈ serviceNames g ∨ n = d.serviceName := by
  unfold serviceNames
  rw [buildRemoteSchema_connected, List.map_map]
  have hfst : (Prod.fst ∘ fun p : String × StoredService =>
      if p.1 == d.serviceName then
        (p.1, { p.2 with remoteExecutableSchema := some ⟨d.serviceName⟩ }) else p) =
      Prod.fst := by
    funext p
    simp only [Function.comp_apply]
    split <;> rfl
  rw [hfst]
  exact names_setKey g.connectedServices d.serviceName ⟨d, none⟩ n

theorem rebuildSchema_fields (stitch : MergeInputs → List (String × Nat)) (g : Gateway) :
    (rebuildSchema stitch g).1.connectedServices = g.connectedServices ∧
    (rebuildSchema stitch g).1.discoveredGraphQLTypes = g.discoveredGraphQLTypes ∧
    (rebuildSchema stitch g).1.requiredGraphQLTypes = g.requiredGraphQLTypes := by
  unfold rebuildSchema
  cases h : g.schema with
  | none => simp
  | some s =>
    simp only
    split
    · exact ⟨rfl, rfl, rfl⟩
    · simp [generateSchema]

theorem inv_step_connect (stitch : MergeInputs → List (String × Nat))
    (typesOf : String → List String) (g : Gateway) (d : RemoteSchemaDefinition)
    (hinv : DiscoveredInv typesOf g)
    (htypes : definedTypesOf d.schema.parsed = typesOf d.serviceName) :
    DiscoveredInv typesOf (handleServiceConnected stitch g d true).1 := by
  by_cases hc : connectChanged g d = true
  · have hstate : (handleServiceConnected stitch g d true).1 =
        (rebuildSchema stitch (buildRemoteSchema (registerService g d) d true).1).1 := by
      simp [handleServiceConnected, hc]
    have hfields := rebuildSchema_fields stitch (buildRemoteSchema (registerService g d) d true).1
    rw [hstate]
    constructor
    · intro p hp
      rw [hfields.1] at hp
      rcases connect_entries hp with ⟨hm, _⟩ | rfl
      · exact hinv.1 p hm
      · exact ⟨rfl, htypes⟩
    · intro x
      have hnames : ∀ n, n ∈ serviceNames (rebuildSchema stitch
          (buildRemoteSchema (registerService g d) d true).1).1 ↔
          n ∈ serviceNames g ∨ n = d.serviceName := by
        intro n
        unfold serviceNames
        rw [hfields.1]
        exact connect_names g d n
      rw [hfields.2.1, buildRemoteSchema_discovered]
      have hdisc : (registerService g d).discoveredGraphQLTypes =
          g.discoveredGraphQLTypes := rfl
      rw [hdisc, mem_concatDifference, htypes]
      constructor
      · rintro (hx | hx)
        · obtain ⟨n, hn, hxn⟩ := (hinv.2 x).mp hx
          exact ⟨n, (hnames n).mpr (Or.inl hn), hxn⟩
        · exact ⟨d.serviceName, (hnames d.serviceName).mpr (Or.inr rfl), hx⟩
      · rintro ⟨n, hn, hxn⟩
        rcases (hnames n).mp hn with hn' | rfl
        · exact Or.inl ((hinv.2 x).mpr ⟨n, hn', hxn⟩)
        · exact Or.inr hxn
  · have hc' : connectChanged g d = false := by simpa using hc
    simpa [handleServiceConnected, hc'] using hinv

theorem inv_step_disconnect (stitch : MergeInputs → List (String × Nat))
    (typesOf : String → List String) (g : Gateway) (d : RemoteSchemaDefinition)
    (hdisj : ∀ n₁ n₂, n₁ ≠ n₂ → ∀ x, x ∈ typesOf n₁ → x ∉ typesOf n₂)
    (hinv : DiscoveredInv typesOf g)
    (htypes : definedTypesOf d.schema.parsed = typesOf d.serviceName) :
    DiscoveredInv typesOf (removeExecutableSchema stitch g d).1 := by
  have hstate : (removeExecutableSchema stitch g d).1 = (rebuildSchema stitch
      { g with
          discoveredGraphQLTypes :=
            lodashDifference g.discoveredGraphQLTypes (typesOf d.serviceName)
          connectedServices := delKey g.connectedServices d.serviceName }).1 := by
    rw [← htypes]
    rfl
  have hfields := rebuildSchema_fields stitch
      { g with
          discoveredGraphQLTypes :=
            lodashDifference g.discoveredGraphQLTypes (typesOf d.serviceName)
          connectedServices := delKey g.connectedServices d.serviceName }
  rw [hstate]
  constructor
  · intro p hp
    rw [hfields.1] at hp
    exact hinv.1 p (mem_delKey.mp hp).1
  · intro x
    have hnames : ∀ n, n ∈ serviceNames (rebuildSchema stitch
        { g with
            discoveredGraphQLTypes :=
              lodashDifference g.discoveredGraphQLTypes (typesOf d.serviceName)
            connectedServices := delKey g.connectedServices d.serviceName }).1 ↔
        n ∈ serviceNames g ∧ n ≠ d.serviceName := by
      intro n
      unfold serviceNames
      rw [hfields.1]
      exact names_delKey g.connectedServices d.serviceName n
    rw [hfields.2.1]
    simp only [mem_lodashDifference]
    constructor
    · rintro ⟨hx, hxd⟩
      obtain ⟨n, hn, hxn⟩ := (hinv.2 x).mp hx
      refine ⟨n, (hnames n).mpr ⟨hn, fun hne => ?_⟩, hxn⟩
      exact hxd (hne ▸ hxn)
    · rintro ⟨n, hn, hxn⟩
      obtain ⟨hn', hne⟩ := (hnames n).mp hn
      exact ⟨(hinv.2 x).mpr ⟨n, hn', hxn⟩, hdisj n d.serviceName hne x hxn⟩

theorem runEvents_inv (stitch : MergeInputs → List (String × Nat))
    (typesOf : String → List String)
    (hdisj : ∀ n₁ n₂, n₁ ≠ n₂ → ∀ x, x ∈ typesOf n₁ → x ∉ typesOf n₂)
    (evts : List GatewayEvent) :
    ∀ g : Gateway, DiscoveredInv typesOf g → (∀ e ∈ evts, eventWellFormed typesOf e) →
      DiscoveredInv typesOf (runEvents stitch g evts) := by
  induction evts with
  | nil => intro g hinv _; exact hinv
  | cons e rest ih =>
    intro g hinv hwf
    have hrest := fun e' he' => hwf e' (List.mem_cons_of_mem e he')
    have he := hwf e (List.mem_cons_self e rest)
    cases e with
    | connected d ok =>
      obtain ⟨rfl, htypes⟩ := he
      exact ih _ (inv_step_connect stitch typesOf g d hinv htypes) hrest
    | disconnected d =>
      exact ih _ (inv_step_disconnect stitch typesOf g d hdisj hinv he) hrest

theorem mem_foldr_append {α : Type} (f : α → List String) (l : List α) (x : String) :
    x ∈ l.foldr (fun p acc => f p ++ acc) [] ↔ ∃ p ∈ l, x ∈ f p := by
  induction l with
  | nil => simp
  | cons a t ih => simp [ih]

theorem mem_registeredBuiltPrimaryTypes {g : Gateway} {x : String} :
    x ∈ registeredBuiltPrimaryTypes g ↔
      ∃ p ∈ g.connectedServices, p.2.remoteExecutableSchema.isSome = true ∧
        x ∈ definedTypesOf p.2.defn.schema.parsed := by
  unfold registeredBuiltPrimaryTypes
  rw [mem_foldr_append]
  constructor
  · rintro ⟨p, hp, hx⟩
    obtain ⟨hm, hsome⟩ := List.mem_filter.mp hp
    exact ⟨p, hm, hsome, hx⟩
  · rintro ⟨p, hm, hsome, hx⟩
    exact ⟨p, List.mem_filter.mpr ⟨hm, hsome⟩, hx⟩

/-- C4 (counterexample): the discovered set does not stay equal to the union
of primary type names of the registered built services: two services `A` and
`B` both declare primary type `X`; after connecting both and then
disconnecting `A`, service `B` is still registered and built and declares
`X`, yet `X` has been removed from the discovered set. -/
theorem c4_counterexample :
    "X" ∈ registeredBuiltPrimaryTypes (runEvents stitch0 (initGateway true false)
        [.connected svcAX true, .connected svcBX true, .disconnected svcAX]) ∧
    "X" ∉ (runEvents stitch0 (initGateway true false)
        [.connected svcAX true, .connected svcBX true, .disconnected svcAX]).discoveredGraphQLTypes := by
  decide

/-- C4 (amended): after every sequence of connect and disconnect events in
which every remote build succeeds, each identity always announces a fragment
with the same primary-type list, and distinct identities declare disjoint
primary types, the discovered set equals (as a set) the union of the primary
type names of the currently registered (and built) services.  Disconnect
removes the event fragment's primary types from the discovered set
unconditionally, so without the disjointness assumption a type name shared
with another still-registered built service is removed as well. -/
theorem c4_amended (stitch : MergeInputs → List (String × Nat))
    (typesOf : String → List String) (evts : List GatewayEvent) (lp hp : Bool)
    (hwf : ∀ e ∈ evts, eventWellFormed typesOf e)
    (hdisj : ∀ n₁ n₂, n₁ ≠ n₂ → ∀ x, x ∈ typesOf n₁ → x ∉ typesOf n₂) :
    ∀ x : String,
      x ∈ (runEvents stitch (initGateway lp hp) evts).discoveredGraphQLTypes ↔
        x ∈ registeredBuiltPrimaryTypes (runEvents stitch (initGateway lp hp) evts) := by
  have hinv0 : DiscoveredInv typesOf (initGateway lp hp) := by
    constructor
    · intro p hp'
      simp [initGateway] at hp'
    · intro x
      simp [initGateway, serviceNames]
  have hinv := runEvents_inv stitch typesOf hdisj evts (initGateway lp hp) hinv0 hwf
  intro x
  rw [(hinv.2 x), mem_registeredBuiltPrimaryTypes]
  constructor
  · rintro ⟨n, hn, hxn⟩
    obtain ⟨p, hm, rfl⟩ := List.mem_map.mp hn
    obtain ⟨hsome, htypes⟩ := hinv.1 p hm
    exact ⟨p, hm, hsome, htypes ▸ hxn⟩
  · rintro ⟨p, hm, _, hx⟩
    obtain ⟨_, htypes⟩ := hinv.1 p hm
    exact ⟨p.1, List.mem_map.mpr ⟨p, hm, rfl⟩, htypes ▸ hx⟩

/-- C4 witness: connecting Author then Book (disjoint primary types, builds
succeeding) and disconnecting Author leaves the discovered set equal, as a
set, to the primary types of the remaining registered built service. -/
theorem c4_witness :
    (∀ e ∈ ([.connected authorDef true, .connected bookDef true,
        .disconnected authorDef] : List GatewayEvent),
      eventWellFormed (fun n => [n]) e) ∧
    (∀ n₁ n₂ : String, n₁ ≠ n₂ → ∀ x, x ∈ (fun n => [n]) n₁ → x ∉ (fun n => [n]) n₂) ∧
    (∀ x : String,
      x ∈ (runEvents stitch0 (initGateway true false)
          [.connected authorDef true, .connected bookDef true,
            .disconnected authorDef]).discoveredGraphQLTypes ↔
        x ∈ registeredBuiltPrimaryTypes (runEvents stitch0 (initGateway true false)
          [.connected authorDef true, .connected bookDef true,
            .disconnected authorDef])) := by
  have hwf : ∀ e ∈ ([.connected authorDef true, .connected bookDef true,
      .disconnected authorDef] : List GatewayEvent),
      eventWellFormed (fun n => [n]) e := by
    intro e he
    rcases List.mem_cons.mp he with rfl | he
    · exact ⟨rfl, by decide⟩
    rcases List.mem_cons.mp he with rfl | he
    · exact ⟨rfl, by decide⟩
    rcases List.mem_cons.mp he with rfl | he
    · exact (by decide : definedTypesOf authorDef.schema.parsed = ["Author"])
    · exact absurd he (List.not_mem_nil _)
  have hdisj : ∀ n₁ n₂ : String, n₁ ≠ n₂ → ∀ x,
      x ∈ (fun n => [n]) n₁ → x ∉ (fun n => [n]) n₂ := by
    intro n₁ n₂ hne x hx1 hx2
    simp only [List.mem_singleton] at hx1 hx2
    exact hne (hx1.symm.trans hx2)
  exact ⟨hwf, hdisj, c4_amended stitch0 (fun n => [n]) _ true false hwf hdisj⟩

end MoleculerGraphQL
